import Mathlib

/-!
Verification development for the Balter load-testing engine.

Shallow embedding of the core control-loop code:
  * `src/balter/src/measurement.rs` (`Measurement::new`)
  * `src/balter/src/data.rs` (`SampleData`, `SampleSet::mean_tps`)
  * `src/balter/src/controllers.rs` and `src/balter/src/controllers/{error_rate,latency}.rs`
  * `src/balter/src/sampler/concurrency_adjusted_sampler.rs`
  * `src/balter/src/sampler/base_sampler.rs` (the `sample` loop and `Timer`)
  * `src/balter/src/transaction.rs` (`transaction_hook`)
  * `src/balter/src/scenario.rs` (builder methods, `run_scenario`)
  * `src/balter-core/src/config.rs`, `src/balter-core/src/constants.rs`

Rust `f64` values are modelled by `Fl`: exact rationals extended with the
IEEE special values `+inf`, `-inf` and `NaN` (rounding of finite values is
not modelled; none of the verified properties depend on it, and the sign of
zero is likewise ignored).  Machine integers (`u32`, `usize`) are modelled
as `Nat` with explicit wrap-around (`% 2^32`, `% 2^64`) where the release
profile wraps, and saturation for `as`-casts from floats.  A Rust panic
(`unwrap`, `expect`) is modelled by an `Option` result being `none`.
-/

namespace Balter

/-- Model of an `f64` value: a finite exact rational or an IEEE special value. -/
inductive Fl where
  | val (q : ℚ)
  | pinf
  | ninf
  | nan
deriving DecidableEq, Repr

/-- Rust `f64::is_nan`. -/
def Fl.isNan : Fl → Bool
  | .nan => true
  | _ => false

/-- Rust `f64` division, including the IEEE zero-denominator and infinity cases
(`0.0/0.0 = NaN`, `x/0.0 = ±inf` for `x ≠ 0`, `x/±inf = 0`). -/
def Fl.fdiv : Fl → Fl → Fl
  | .val x, .val y =>
    if y = 0 then
      if x = 0 then .nan
      else if 0 < x then .pinf else .ninf
    else .val (x / y)
  | .val _, .pinf => .val 0
  | .val _, .ninf => .val 0
  | .pinf, .val y => if 0 ≤ y then .pinf else .ninf
  | .ninf, .val y => if 0 ≤ y then .ninf else .pinf
  | _, _ => .nan

/-- Rust `f64` multiplication, including the IEEE `0 * inf = NaN` cases. -/
def Fl.fmul : Fl → Fl → Fl
  | .val x, .val y => .val (x * y)
  | .val x, .pinf => if x = 0 then .nan else if 0 < x then .pinf else .ninf
  | .val x, .ninf => if x = 0 then .nan else if 0 < x then .ninf else .pinf
  | .pinf, .val y => if y = 0 then .nan else if 0 < y then .pinf else .ninf
  | .ninf, .val y => if y = 0 then .nan else if 0 < y then .ninf else .pinf
  | .pinf, .pinf => .pinf
  | .pinf, .ninf => .ninf
  | .ninf, .pinf => .ninf
  | .ninf, .ninf => .pinf
  | _, _ => .nan

/-- Rust `f64` strict comparison `<`; any comparison involving `NaN` is false. -/
def Fl.flt : Fl → Fl → Bool
  | .val x, .val y => decide (x < y)
  | .val _, .pinf => true
  | .ninf, .val _ => true
  | .ninf, .pinf => true
  | _, _ => false

/-- Rust `f64::ceil`; special values are fixed points. -/
def Fl.fceil : Fl → Fl
  | .val q => .val (⌈q⌉ : ℚ)
  | x => x

/-- Rust saturating cast of a finite float value to `u32`
(truncation toward zero, clamped to `[0, 2^32 - 1]`). -/
def ratToU32Sat (q : ℚ) : ℕ :=
  if q < 0 then 0 else min ⌊q⌋.toNat (2 ^ 32 - 1)

/-- Rust saturating cast of a finite float value to `usize` (64-bit). -/
def ratToUsizeSat (q : ℚ) : ℕ :=
  if q < 0 then 0 else min ⌊q⌋.toNat (2 ^ 64 - 1)

/-- Rust `f64 as usize` cast: saturating, `NaN ↦ 0`. -/
def Fl.toUsizeSat : Fl → ℕ
  | .val q => ratToUsizeSat q
  | .pinf => 2 ^ 64 - 1
  | .ninf => 0
  | .nan => 0

/-- Rust `NonZeroU32::new(n)`: `none` iff `n = 0`; `.unwrap()` on the result is a
panic exactly when this is `none`. -/
def nzu32 (n : ℕ) : Option ℕ :=
  if n = 0 then none else some n

/-- Wrapping `u32` arithmetic (release-profile overflow semantics). -/
def wrap32 (n : ℕ) : ℕ := n % 2 ^ 32

/-- Wrapping `u32` subtraction `a - b`. -/
def sub32 (a b : ℕ) : ℕ := (((a : ℤ) - b) % (2 ^ 32 : ℤ)).toNat

/-- Wrapping `usize` subtraction `a - b` (64-bit). -/
def subUsize (a b : ℕ) : ℕ := (((a : ℤ) - b) % (2 ^ 64 : ℤ)).toNat

/-! ## Measurement (`src/balter/src/measurement.rs`) -/

/-- Rust `Measurement` from `measurement.rs` (the embedded latency T-digest sketch
is probabilistic and out of scope of the verified claims; it is omitted).
`elapsed` is the interval duration in seconds. -/
structure Measurement where
  tps : Fl
  error_rate : Fl
  elapsed : ℚ
deriving DecidableEq, Repr

/-- Rust `Measurement::new(success, error, elapsed)`:
`tps = success as f64 / elapsed.as_secs_f64()` and
`error_rate = error as f64 / (success + error) as f64` — with no guard on a
zero denominator. -/
def Measurement.new (success error : ℕ) (elapsed : ℚ) : Measurement :=
  { tps := Fl.fdiv (.val (success : ℚ)) (.val elapsed)
    error_rate := Fl.fdiv (.val (error : ℚ)) (.val ((success : ℚ) + (error : ℚ)))
    elapsed := elapsed }

/-! ## Sample data (`src/balter/src/data.rs`) -/

/-- Rust `SampleData`: one tick's drained counters; `elapsed_ns` is the tick
duration in integer nanoseconds (Rust `Duration` stores integral nanos). -/
structure SampleData where
  success : ℕ
  error : ℕ
  elapsed_ns : ℕ
deriving DecidableEq, Repr

/-- Rust `SampleData::total`. -/
def SampleData.total (d : SampleData) : ℕ := d.success + d.error

/-- Rust `SampleData::tps`: `total as f64 / elapsed.as_nanos() as f64 * 1e9`
(finite values only; an interval of zero nanoseconds never leaves the timer). -/
def SampleData.tps (d : SampleData) : ℚ :=
  (d.total : ℚ) / (d.elapsed_ns : ℚ) * 1000000000

/-- Rust `SampleSet::mean_tps` over the recorded interval samples. -/
def mean_tps (l : List SampleData) : ℚ :=
  (l.map SampleData.tps).sum / (l.length : ℚ)

/-! ## Constants (`src/balter-core/src/constants.rs`) -/

/-- Rust `BASE_TPS` (256). -/
def BASE_TPS : ℕ := 256

/-- Rust `BASE_CONCURRENCY`. -/
def BASE_CONCURRENCY : ℕ := 4

/-- Rust `MIN_SAMPLE_COUNT`. -/
def MIN_SAMPLE_COUNT : ℕ := 256

/-- Rust `ADJUSTABLE_SAMPLE_COUNT`. -/
def ADJUSTABLE_SAMPLE_COUNT : ℕ := 5000

/-- Rust `BASELINE_TPS`, imported by `controllers/error_rate.rs` from
`balter_core`; the `balter-core` sources in the tree define only
`BASE_TPS = 256`, so the baseline is modelled as 256. -/
def BASELINE_TPS : ℕ := 256

/-! ## Error-rate controller (`src/balter/src/controllers/error_rate.rs`) -/

/-- Controller state machine `State`; `SmallStep` carries the step fraction. -/
inductive ERCState where
  | BigStep
  | SmallStep (step : ℚ)
  | Stable
deriving DecidableEq, Repr

/-- Rust `Bounds`: position of the observed error rate relative to the target band. -/
inductive Bounds where
  | Under
  | At
  | Over
deriving DecidableEq, Repr

/-- Rust `ErrorRateController` (the metrics label string is omitted). -/
structure ErrorRateController where
  goal_tps : ℕ
  error_rate : ℚ
  state : ERCState
deriving DecidableEq, Repr

/-- Rust `ErrorRateController::new`. -/
def ErrorRateController.new (error_rate : ℚ) : ErrorRateController :=
  { goal_tps := BASELINE_TPS, error_rate := error_rate, state := .BigStep }

/-- Rust `ErrorRateController::check_bounds`: band is
`[target - 0.03, target + 0.03]` clamped to `[0, 0.99]`; an observed rate of
exactly 0 is `Under`. -/
def ErrorRateController.check_bounds (c : ErrorRateController) (rate : ℚ) : Bounds :=
  let b0 : ℚ := max (c.error_rate - 0.03) 0
  let b1 : ℚ := min (c.error_rate + 0.03) 0.99
  if rate = 0 then .Under
  else if b0 ≤ rate ∧ rate ≤ b1 then .At
  else if b1 < rate then .Over
  else .Under

/-- Rust `convert_to_nonzerou32(val)`: `val as u32` (saturating) then
`NonZeroU32::new`. -/
def convert_to_nonzerou32 (q : ℚ) : Option ℕ :=
  nzu32 (ratToU32Sat q)

/-- The `(new_goal_tps, new_state)` computation inside
`ErrorRateController::limit` (the big `match`).  `rate` is
`samples.mean_err()` and `mtps` is `samples.mean_tps()`.  `none` models a
panicking `unwrap` of `NonZeroU32::new(0)`; `u32` arithmetic wraps. -/
def erc_compute (c : ErrorRateController) (rate mtps : ℚ) : Option (ℕ × ERCState) :=
  match c.check_bounds rate with
  | .Under =>
    match c.state with
    | .BigStep => (nzu32 (wrap32 (c.goal_tps * 2))).map (fun g => (g, ERCState.BigStep))
    | .SmallStep sr =>
      let step : ℚ := max ((c.goal_tps : ℚ) * sr) 1
      (nzu32 (wrap32 (c.goal_tps + ratToU32Sat step))).map (fun g => (g, ERCState.SmallStep sr))
    | .Stable => some (c.goal_tps, ERCState.SmallStep 0.5)
  | .At =>
    match c.state with
    | .BigStep => (convert_to_nonzerou32 mtps).map (fun g => (g, ERCState.Stable))
    | .SmallStep _ => (convert_to_nonzerou32 mtps).map (fun g => (g, ERCState.Stable))
    | .Stable => some (c.goal_tps, ERCState.Stable)
  | .Over =>
    match c.state with
    | .BigStep => (nzu32 (c.goal_tps / 2)).map (fun g => (g, ERCState.SmallStep 0.5))
    | .SmallStep sr =>
      let step : ℚ := max ((c.goal_tps : ℚ) * sr) 1
      (nzu32 (sub32 c.goal_tps (ratToU32Sat step))).map (fun g => (g, ERCState.SmallStep (sr / 2)))
    | .Stable => some (c.goal_tps, ERCState.SmallStep 0.5)

/-- Rust `ErrorRateController::limit`: compute the candidate, then apply it only
when it lowers the goal or the sampler reported stable; returns the (possibly
unchanged) `goal_tps` together with the updated controller. -/
def ErrorRateController.limit (c : ErrorRateController) (rate mtps : ℚ) (stable : Bool) :
    Option (ℕ × ErrorRateController) :=
  (erc_compute c rate mtps).map fun p =>
    if p.1 < c.goal_tps ∨ stable then
      (p.1, { c with goal_tps := p.1, state := p.2 })
    else
      (c.goal_tps, c)

/-! ## Latency controller (`src/balter/src/controllers/latency.rs`) -/

/-- Rust `DEFAULT_KP`. -/
def DEFAULT_KP : ℚ := 0.9

/-- Rust `LatencyController` (label string omitted); `latency` is the goal latency
in seconds, `kp` the proportional gain. -/
structure LatencyController where
  latency : ℚ
  quantile : ℚ
  goal_tps : ℕ
  kp : ℚ
deriving DecidableEq, Repr

/-- Rust `LatencyController::new`. -/
def LatencyController.new (latency quantile : ℚ) (kp : Option ℚ) : LatencyController :=
  { latency := latency, quantile := quantile, goal_tps := BASE_TPS
    kp := kp.getD DEFAULT_KP }

/-- The candidate goal computed inside `LatencyController::limit`:
`new_goal = goal * (1 + kp * (1 - measured / target))` cast to `u32` and
checked against zero by `NonZeroU32::new`.  `measured` is the sampled
latency at the configured quantile, in seconds. -/
def lc_compute (c : LatencyController) (measured : ℚ) : Option ℕ :=
  nzu32 (ratToU32Sat ((c.goal_tps : ℚ) * (1 + c.kp * (1 - measured / c.latency))))

/-- Rust `LatencyController::limit`: a zero candidate is logged and the goal held;
otherwise the candidate is applied only when it lowers the goal or the
sampler reported stable. -/
def LatencyController.limit (c : LatencyController) (measured : ℚ) (stable : Bool) :
    ℕ × LatencyController :=
  match lc_compute c measured with
  | some ng =>
    if ng < c.goal_tps ∨ stable then (ng, { c with goal_tps := ng })
    else (c.goal_tps, c)
  | none => (c.goal_tps, c)

/-! ## Config and composite controller
(`src/balter-core/src/config.rs`, `src/balter/src/controllers.rs`) -/

/-- Rust `LatencyConfig`: goal latency (seconds) and quantile. -/
structure LatencyConfig where
  latency : ℚ
  quantile : ℚ
deriving DecidableEq, Repr

/-- Hint configuration.  `concurrency` is `HintConfig.concurrency` from
`balter-core/src/config.rs`; `starting_tps` and `latency_controller` are the
fields `controllers.rs` reads from `config.hints` (declared in a revision of
`HintConfig` not present in the tree, modelled from those uses). -/
structure Hints where
  concurrency : ℕ
  starting_tps : Option ℕ
  latency_controller : Option ℚ
deriving DecidableEq, Repr

/-- Rust `ScenarioConfig`. -/
structure ScenarioConfig where
  name : String
  duration : Option ℚ
  max_tps : Option ℕ
  error_rate : Option ℚ
  latency : Option LatencyConfig
  hints : Hints
deriving DecidableEq, Repr

/-- Rust `ScenarioConfig::new`: no constraints, default hints. -/
def ScenarioConfig.new (name : String) : ScenarioConfig :=
  { name := name, duration := none, max_tps := none, error_rate := none
    latency := none
    hints := { concurrency := BASE_CONCURRENCY, starting_tps := none, latency_controller := none } }

/-- Rust `ScenarioConfig::is_unconfigured`: true iff none of the three constraints
is present. -/
def ScenarioConfig.is_unconfigured (cfg : ScenarioConfig) : Bool :=
  match cfg.max_tps, cfg.error_rate, cfg.latency with
  | none, none, none => true
  | _, _, _ => false

/-- One enabled sub-controller of the composite, as constructed by
`CompositeController::new`. -/
inductive ControllerKind where
  | constant (tps : ℕ)
  | errorRate (target : ℚ)
  | latency (cfg : LatencyConfig) (kp : Option ℚ)
deriving DecidableEq, Repr

/-- Rust `initial_tps` of each sub-controller: the configured cap for the constant
controller, the fixed baseline for the error-rate and latency controllers. -/
def ControllerKind.initial_tps : ControllerKind → ℕ
  | .constant tps => tps
  | .errorRate _ => BASELINE_TPS
  | .latency _ _ => BASE_TPS

/-- Rust `CompositeController::new`: one sub-controller per configured constraint,
in the order max_tps, error_rate, latency. -/
def CompositeController.new (cfg : ScenarioConfig) : List ControllerKind :=
  (match cfg.max_tps with | some tps => [ControllerKind.constant tps] | none => []) ++
  (match cfg.error_rate with | some e => [ControllerKind.errorRate e] | none => []) ++
  (match cfg.latency with
    | some lc => [ControllerKind.latency lc cfg.hints.latency_controller]
    | none => [])

/-- Rust `CompositeController::initial_tps`: the `starting_tps` hint when present,
otherwise the minimum of the sub-controllers' initial values —
`.min().expect("No controllers present.")`, which panics (`none`) when the
controller list is empty. -/
def CompositeController.initial_tps (controllers : List ControllerKind)
    (starting_tps : Option ℕ) : Option ℕ :=
  match starting_tps with
  | some tps => some tps
  | none =>
    match controllers.map ControllerKind.initial_tps with
    | [] => none
    | x :: xs => some (xs.foldl min x)

/-- The entry of `run_scenario` (`scenario.rs`): it unconditionally builds the
composite controller from the config and seeds the run with
`controllers.initial_tps()` — there is no `is_unconfigured` early return, so
`none` here is the `expect` panic reached on an unconstraint config. -/
def run_scenario_start (cfg : ScenarioConfig) : Option ℕ :=
  CompositeController.initial_tps (CompositeController.new cfg) cfg.hints.starting_tps

/-- Builder method `ConfigurableScenario::error_rate` (`scenario.rs`): stores
the argument into the config with no validation. -/
def ConfigurableScenario.error_rate (cfg : ScenarioConfig) (x : ℚ) : ScenarioConfig :=
  { cfg with error_rate := some x }

/-! ## Concurrency-adjusted sampler
(`src/balter/src/sampler/concurrency_adjusted_sampler.rs`) -/

/-- Rust `MAX_CHANGE`: cap on a single concurrency step. -/
def MAX_CHANGE : ℕ := 100

/-- Rust `CONCURRENCY_SET_ADJUSTMENT`. -/
def CONCURRENCY_SET_ADJUSTMENT : ℚ := 0.75

/-- State of `ConcurrencyAdjustedSampler`: the wrapped base sampler's
`tps_limit` and worker count (`concurrency`), the recorded
`(concurrency, observed mean tps)` points, and the `tps_limited` flag. -/
structure CAS where
  tps_limit : ℕ
  tps_limited : Bool
  measurements : List (ℕ × ℚ)
  concurrency : ℕ
  starting_concurrency : ℕ
deriving DecidableEq, Repr

/-- One slope of TPS against concurrency over two adjacent recorded points:
`(t1 - t0) / ((c1 - c0) as f64)` with wrapping `usize` subtraction in the
denominator. -/
def slope (p0 p1 : ℕ × ℚ) : Fl :=
  Fl.fdiv (.val (p1.2 - p0.2)) (.val ((subUsize p1.1 p0.1 : ℕ) : ℚ))

/-- The slope list computed by `detect_underpowered`: adjacent-window slopes,
with a NaN slope logged and replaced by `0.`. -/
def slopes (ms : List (ℕ × ℚ)) : List Fl :=
  (ms.zip ms.tail).map fun p =>
    let s := slope p.1 p.2
    if s.isNan then Fl.val 0 else s

/-- Rust `ConcurrencyAdjustedSampler::detect_underpowered`.  Result:
`none` — the `NonZeroU32::new(tps as u32).unwrap()` panicked (cast was 0);
`some none` — not under-powered; `some (some (max_tps, concurrency))` — the
run is TPS-limited with that ceiling, taken from the last-but-two recorded
point.  Detection requires more than two slopes with the last two below 1. -/
def detect_underpowered (ms : List (ℕ × ℚ)) : Option (Option (ℕ × ℕ)) :=
  let sl := slopes ms
  if 2 < sl.length ∧ ((sl.reverse.take 2).all fun m => m.flt (Fl.val 1)) then
    let p := ms.getD (ms.length - 3) (0, 0)
    match nzu32 (ratToU32Sat p.2) with
    | some mt => some (some (mt, p.1))
    | none => none
  else some none

/-- The concurrency candidate computed at the top of `adjust_concurrency`:
`ceil(concurrency as f64 * (goal_tps / measured_tps)) as usize`, with the
step from the current concurrency clamped to `MAX_CHANGE`. -/
def concurrency_candidate (s : CAS) (measured : ℚ) : ℕ :=
  let adjustment := Fl.fdiv (.val (s.tps_limit : ℚ)) (.val measured)
  let nc := (Fl.fmul (.val (s.concurrency : ℚ)) adjustment).fceil.toUsizeSat
  if MAX_CHANGE < subUsize nc s.concurrency then s.concurrency + MAX_CHANGE else nc

/-- Rust `ConcurrencyAdjustedSampler::adjust_concurrency`: records the point,
computes the clamped candidate, then — unless the candidate is 0, in which
case the starting concurrency is used — runs under-power detection, which on
success pins `tps_limited`, lowers the base sampler's TPS limit to the
detected ceiling and scales that point's concurrency by 0.75 (truncated).
Returns the new concurrency and the updated state; `none` is a panic inside
`detect_underpowered`. -/
def adjust_concurrency (s : CAS) (measured : ℚ) : Option (ℕ × CAS) :=
  let ms' := s.measurements ++ [(s.concurrency, measured)]
  let s1 := { s with measurements := ms' }
  let nc := concurrency_candidate s measured
  if nc = 0 then
    some (s.starting_concurrency, s1)
  else
    match detect_underpowered ms' with
    | none => none
    | some (some p) =>
      some (ratToUsizeSat ((p.2 : ℚ) * CONCURRENCY_SET_ADJUSTMENT),
        { s1 with tps_limited := true, tps_limit := p.1 })
    | some none => some (nc, s1)

/-- Rust `ConcurrencyAdjustedSampler::sample`: compare the measured mean TPS of the
base sampler's `SampleSet` against the goal; within 5 % relative error the
sampler reports stable and changes nothing, otherwise it adjusts the worker
count.  Returns the stability flag and the updated state (`none` = panic). -/
def CAS.sample (s : CAS) (samples : List SampleData) : Option (Bool × CAS) :=
  let measured := mean_tps samples
  let goal : ℚ := (s.tps_limit : ℚ)
  if (goal - measured) / goal < 0.05 then
    some (true, s)
  else
    match adjust_concurrency s measured with
    | some p => some (false, { p.2 with concurrency := p.1 })
    | none => none

/-- Rust `ConcurrencyAdjustedSampler::set_tps_limit`: once `tps_limited` is set, a
limit above the current one is ignored; any other limit is forwarded to the
base sampler. -/
def CAS.set_tps_limit (s : CAS) (limit : ℕ) : CAS :=
  if s.tps_limit < limit ∧ s.tps_limited then s
  else { s with tps_limit := limit }

/-! ## Transaction hook (`src/balter/src/transaction.rs`) -/

/-- The task-local `TransactionData` counters reachable from the hook (the
rate-limiter handle is control flow only and carries no counted state). -/
structure TransactionData where
  success : ℕ
  error : ℕ
  latency : List ℚ
deriving DecidableEq, Repr

/-- Rust `transaction_hook`: with a task-local context present, awaits the body,
pushes the elapsed latency, bumps the success or error counter according to
the result, and returns the body's result unchanged; with no context it just
awaits the body.  `ctx` is the task-local lookup (`TRANSACTION_HOOK.try_with`)
and `elapsed` the measured latency of this call. -/
def transaction_hook {R E : Type} (ctx : Option TransactionData) (elapsed : ℚ)
    (res : Except E R) : Option TransactionData × Except E R :=
  match ctx with
  | some h =>
    let h1 := { h with latency := h.latency ++ [elapsed] }
    match res with
    | .ok _ => (some { h1 with success := h1.success + 1 }, res)
    | .error _ => (some { h1 with error := h1.error + 1 }, res)
  | none => (none, res)

/-! ## Base sampler measurement loop (`src/balter/src/sampler/base_sampler.rs`) -/

/-- Rust `SKIP_SIZE`: number of initial (noisy) ticks discarded per `sample()` call. -/
def SKIP_SIZE : ℕ := 2

/-- Rust `is_stable(values, count)`: relative successive differences of the running
means, counted from the end while below 0.02 (`f64` comparison: a NaN or +inf
difference stops the run). -/
def is_stable (values : List ℚ) (count : ℕ) : Bool :=
  let diffs := (values.zip values.tail).map fun p =>
    Fl.fdiv (.val (p.2 - p.1)) (.val p.1)
  count - 1 ≤ (diffs.reverse.takeWhile fun x => x.flt (Fl.val 0.02)).length

/-- The per-tick inputs of the `BaseSampler::sample` loop: the counters
drained from the task atomics this tick and the tick's elapsed time. -/
structure Tick where
  success : ℕ
  error : ℕ
  elapsed_ns : ℕ
deriving DecidableEq, Repr

/-- The loop state of one `BaseSampler::sample` call: the accumulating
`SampleSet`, the remaining skip window, the running means, and the sampler's
worker count and timer interval (milliseconds). -/
structure BSState where
  samples : List SampleData
  skip_window : ℕ
  means : List ℚ
  concurrency : ℕ
  interval_ms : ℕ
deriving DecidableEq, Repr

/-- The state at the top of a `BaseSampler::sample` call: fresh `SampleSet`,
skip window of `SKIP_SIZE`, no means yet. -/
def BSState.init (concurrency interval_ms : ℕ) : BSState :=
  { samples := [], skip_window := SKIP_SIZE, means := [], concurrency := concurrency
    interval_ms := interval_ms }

/-- One iteration of the `BaseSampler::sample` loop body.  A tick whose
drained count is below `MIN_SAMPLE_COUNT` is dropped and doubles the worker
count (below 50 workers) or — through `Timer::double`, which refuses
intervals of 10 s and above — the sampling interval.  Otherwise the tick is
recorded (after the skip window); with more than 10 recorded samples and a
stable running mean the set is returned, possibly rescaling the timer
(`Timer::halve`, which as written multiplies the interval by 2); an unstable
set of more than 100 samples is cleared. -/
def sampleStep (st : BSState) (t : Tick) : BSState × Option (List SampleData) :=
  let cnt := t.success + t.error
  if cnt < MIN_SAMPLE_COUNT then
    if st.concurrency < 50 then
      ({ st with concurrency := st.concurrency * 2 }, none)
    else
      ({ st with interval_ms :=
          if st.interval_ms < 10000 then st.interval_ms * 2 else st.interval_ms }, none)
  else if 0 < st.skip_window then
    ({ st with skip_window := st.skip_window - 1 }, none)
  else
    let samples' := st.samples ++ [⟨t.success, t.error, t.elapsed_ns⟩]
    if 10 < samples'.length then
      let means' := st.means ++ [mean_tps samples']
      if is_stable means' 5 then
        let iv := if samples'.length < 25 ∧ ADJUSTABLE_SAMPLE_COUNT < cnt then
          st.interval_ms * 2 else st.interval_ms
        ({ st with samples := samples', means := means', interval_ms := iv }, some samples')
      else if 100 < samples'.length then
        ({ st with samples := [], means := means' }, none)
      else
        ({ st with samples := samples', means := means' }, none)
    else
      ({ st with samples := samples' }, none)

/-- The `BaseSampler::sample` loop run over a finite list of tick inputs:
returns the first `SampleSet` the loop would return, or `none` if the tick
stream is exhausted first (the real loop would keep waiting on the timer). -/
def sampleLoop : List Tick → BSState → Option (List SampleData)
  | [], _ => none
  | t :: ts, st =>
    match sampleStep st t with
    | (_, some out) => some out
    | (st', none) => sampleLoop ts st'

/-! ## Helper lemmas -/

theorem ratToU32Sat_ge_one {q : ℚ} (h : 1 ≤ q) : 1 ≤ ratToU32Sat q := by
  unfold ratToU32Sat
  rw [if_neg (by linarith)]
  refine le_min ?_ (by norm_num)
  have h1 : (1 : ℤ) ≤ ⌊q⌋ := Int.le_floor.mpr (by exact_mod_cast h)
  omega

theorem ratToU32Sat_le_of_le {q : ℚ} {n : ℕ} (h : q ≤ (n : ℚ)) : ratToU32Sat q ≤ n := by
  unfold ratToU32Sat
  split
  · exact Nat.zero_le n
  · refine le_trans (min_le_left _ _) ?_
    have h1 : ⌊q⌋ ≤ (n : ℤ) := (Int.floor_le_floor h).trans_eq (Int.floor_natCast n)
    omega

/-! ## Claim theorems -/

/-- Claim C1 (code evaluated at the failing input): a `ScenarioConfig` with no
constraint — no `max_tps`, no `error_rate`, no latency goal — is
`is_unconfigured`, yet `run_scenario` has no early return for it: it reaches
`CompositeController::initial_tps`, whose `.expect("No controllers
present.")` panics (`none`) instead of returning `RunStatistics::default()`.
The repo's own test `transparent_scenario_call` awaits exactly such a
scenario. -/
theorem c1_unconstrained_scenario_panics :
    (ScenarioConfig.new "test").is_unconfigured = true ∧
    run_scenario_start (ScenarioConfig.new "test") = none := by
  exact ⟨rfl, rfl⟩

/-- Claim C4, counterexample: `Measurement::new(0, 0, 1s)` yields
`error_rate = 0.0/0.0 = NaN`, not the claimed 0 — `Measurement::new` divides
with no guard on a zero denominator. -/
theorem c4_counterexample :
    (Measurement.new 0 0 1).error_rate = Fl.nan ∧ Fl.nan ≠ Fl.val 0 := by
  refine ⟨by norm_num [Measurement.new, Fl.fdiv], by simp⟩

/-- Claim C4, amended: for success count `s`, error count `e` and positive
elapsed time, the measurement has `tps = s/elapsed ≥ 0`; when `s + e > 0` its
`error_rate = e/(s+e)` lies in `[0, 1]`; when `s + e = 0` the `error_rate` is
NaN (not 0). -/
theorem c4_measurement_fields (success error : ℕ) (elapsed : ℚ) (h : 0 < elapsed) :
    (Measurement.new success error elapsed).tps = Fl.val ((success : ℚ) / elapsed) ∧
    0 ≤ (success : ℚ) / elapsed ∧
    (0 < success + error →
      (Measurement.new success error elapsed).error_rate
        = Fl.val ((error : ℚ) / ((success : ℚ) + (error : ℚ))) ∧
      0 ≤ (error : ℚ) / ((success : ℚ) + (error : ℚ)) ∧
      (error : ℚ) / ((success : ℚ) + (error : ℚ)) ≤ 1) ∧
    (success + error = 0 → (Measurement.new success error elapsed).error_rate = Fl.nan) := by
  refine ⟨?_, ?_, ?_, ?_⟩
  · simp only [Measurement.new, Fl.fdiv]
    rw [if_neg (ne_of_gt h)]
  · exact div_nonneg (Nat.cast_nonneg _) h.le
  · intro hpos
    have hq : (0 : ℚ) < (success : ℚ) + (error : ℚ) := by
      have : (0 : ℚ) < ((success + error : ℕ) : ℚ) := by exact_mod_cast hpos
      push_cast at this
      linarith
    refine ⟨?_, ?_, ?_⟩
    · simp only [Measurement.new, Fl.fdiv]
      rw [if_neg (ne_of_gt hq)]
    · exact div_nonneg (Nat.cast_nonneg _) hq.le
    · rw [div_le_one hq]
      have : (0 : ℚ) ≤ (success : ℚ) := Nat.cast_nonneg _
      linarith
  · intro hzero
    have hs : success = 0 := by omega
    have he : error = 0 := by omega
    subst hs he
    simp [Measurement.new, Fl.fdiv]

/-- Witness for `c4_measurement_fields` at `success = 3`, `error = 1`,
`elapsed = 2`. -/
theorem c4_witness :
    (Measurement.new 3 1 2).error_rate = Fl.val ((1 : ℚ) / ((3 : ℚ) + (1 : ℚ))) :=
  ((c4_measurement_fields 3 1 2 (by norm_num)).2.2.1 (by norm_num)).1

/-- Claim C8, counterexample: `error_rate(1.5)` does not panic — the builder
stores the out-of-range value into the config unchanged, so the invalid
configuration is kept, not refused. -/
theorem c8_counterexample :
    (ConfigurableScenario.error_rate (ScenarioConfig.new "s") (3 / 2)).error_rate
      = some (3 / 2 : ℚ) ∧ ¬ ((3 / 2 : ℚ) ≤ 1) := by
  exact ⟨rfl, by norm_num⟩

/-- Claim C8, amended: `error_rate(x)` performs no validation: for any `x`
outside `[0, 1]` it simply stores `Some(x)` into the config and returns the
builder (no panic occurs at the call site). -/
theorem c8_error_rate_stores_unchecked (cfg : ScenarioConfig) (x : ℚ)
    (_h : x < 0 ∨ 1 < x) :
    ConfigurableScenario.error_rate cfg x = { cfg with error_rate := some x } := rfl

/-- Witness for `c8_error_rate_stores_unchecked` at `x = 2`. -/
theorem c8_witness :
    ConfigurableScenario.error_rate (ScenarioConfig.new "w") 2
      = { ScenarioConfig.new "w" with error_rate := some 2 } :=
  c8_error_rate_stores_unchecked (ScenarioConfig.new "w") 2 (Or.inr (by norm_num))

/-- Claim C9: `transaction_hook` returns exactly the wrapped transaction's
result; with a task-local context present an `Ok` bumps only the success
counter and an `Err` only the error counter (the latency sample is pushed in
both cases); with no context the body's result is passed through with no
accounting. -/
theorem c9_hook_transparent {R E : Type} (ctx : Option TransactionData)
    (elapsed : ℚ) (res : Except E R) :
    (transaction_hook ctx elapsed res).2 = res ∧
    (∀ h r, ctx = some h → res = Except.ok r →
      (transaction_hook ctx elapsed res).1
        = some { h with success := h.success + 1, latency := h.latency ++ [elapsed] }) ∧
    (∀ h e, ctx = some h → res = Except.error e →
      (transaction_hook ctx elapsed res).1
        = some { h with error := h.error + 1, latency := h.latency ++ [elapsed] }) ∧
    (ctx = none → transaction_hook ctx elapsed res = (none, res)) := by
  refine ⟨?_, ?_, ?_, ?_⟩
  · cases ctx <;> cases res <;> rfl
  · rintro h r rfl rfl
    rfl
  · rintro h e rfl rfl
    rfl
  · rintro rfl
    cases res <;> rfl

/-- Witness for `c9_hook_transparent`: a present context and an `Ok` result. -/
theorem c9_witness :
    (transaction_hook (some ⟨2, 3, [1]⟩) 4 (Except.ok 5 : Except String ℕ)).1
      = some ⟨3, 3, [1, 4]⟩ :=
  (c9_hook_transparent (some ⟨2, 3, [1]⟩) 4 (Except.ok 5 : Except String ℕ)).2.1
    ⟨2, 3, [1]⟩ 5 rfl rfl

/-- Claim C3, counterexample: after under-power detection has pinned the
ceiling at 10 TPS (first conjunct: the detection step itself), a call
`set_tps_limit(5)` is accepted; the subsequent call `set_tps_limit(8)` —
with 8 at or below the detected ceiling 10, so the claim requires the limit
to become 8 — is ignored because the code compares against the *current*
limit 5, not the detected ceiling. -/
theorem c3_counterexample :
    CAS.sample ⟨100, false, [(1, 10), (2, 10), (3, 10)], 4, 4⟩ [⟨10, 0, 1000000000⟩]
      = some (false, ⟨10, true, [(1, 10), (2, 10), (3, 10), (4, 10)], 1, 4⟩) ∧
    ((CAS.set_tps_limit
        (CAS.set_tps_limit ⟨10, true, [(1, 10), (2, 10), (3, 10), (4, 10)], 1, 4⟩ 5)
        8).tps_limit = 5 ∧ (5 : ℕ) ≠ 8) := by
  constructor
  · norm_num [CAS.sample, mean_tps, SampleData.tps, SampleData.total, adjust_concurrency,
      concurrency_candidate, detect_underpowered, slopes, slope, subUsize, Fl.fdiv, Fl.fmul,
      Fl.fceil, Fl.toUsizeSat, ratToUsizeSat, ratToU32Sat, nzu32, Fl.isNan, Fl.flt, wrap32,
      MAX_CHANGE, CONCURRENCY_SET_ADJUSTMENT]
    decide
  · exact ⟨by norm_num [CAS.set_tps_limit], by norm_num⟩

/-- Claim C3, amended: `set_tps_limit` compares the requested limit against
the *current* TPS limit (which equals the detected ceiling immediately after
detection, but may since have been lowered): once `tps_limited` is set, a
request above the current limit is ignored and the limit never rises; a
request at or below the current limit always sets the limit to it. -/
theorem c3_set_tps_limit_vs_current (s : CAS) (r : ℕ) :
    (r ≤ s.tps_limit → (s.set_tps_limit r).tps_limit = r) ∧
    (s.tps_limited = true → s.tps_limit < r → s.set_tps_limit r = s) ∧
    (s.tps_limited = true → (s.set_tps_limit r).tps_limit ≤ s.tps_limit) := by
  refine ⟨?_, ?_, ?_⟩
  · intro h
    rw [CAS.set_tps_limit, if_neg (by simp; omega)]
  · intro hl hr
    rw [CAS.set_tps_limit, if_pos ⟨hr, hl⟩]
  · intro hl
    rw [CAS.set_tps_limit]
    split
    · exact le_refl _
    · rename_i hcond
      simp only [hl, and_true, not_lt] at hcond
      simpa using hcond

/-- Witness for `c3_set_tps_limit_vs_current`: lowering 100 → 40 while
TPS-limited is accepted. -/
theorem c3_witness :
    ((⟨100, true, [], 2, 4⟩ : CAS).set_tps_limit 40).tps_limit = 40 :=
  (c3_set_tps_limit_vs_current ⟨100, true, [], 2, 4⟩ 40).1 (by norm_num)

/-- Claim C2: the asymmetric apply rule of both feedback controllers.  For
`ErrorRateController::limit` and `LatencyController::limit` with
`stable = false` the returned goal never exceeds the controller's previous
`goal_tps`; a computed candidate strictly below the previous `goal_tps` is
applied (stored and returned) for either value of the stable flag. -/
theorem c2_asymmetric_apply (c : ErrorRateController) (rate mtps : ℚ)
    (lc : LatencyController) (measured : ℚ) :
    (∀ g c', c.limit rate mtps false = some (g, c') → g ≤ c.goal_tps) ∧
    (∀ ng ns stable, erc_compute c rate mtps = some (ng, ns) → ng < c.goal_tps →
      c.limit rate mtps stable = some (ng, { c with goal_tps := ng, state := ns })) ∧
    ((lc.limit measured false).1 ≤ lc.goal_tps) ∧
    (∀ ng stable, lc_compute lc measured = some ng → ng < lc.goal_tps →
      lc.limit measured stable = (ng, { lc with goal_tps := ng })) := by
  refine ⟨?_, ?_, ?_, ?_⟩
  · intro g c' h
    rcases hc : erc_compute c rate mtps with _ | p
    · rw [ErrorRateController.limit, hc] at h
      exact absurd h (by simp)
    · rw [ErrorRateController.limit, hc] at h
      simp only [Option.map_some', Option.some_inj] at h
      by_cases hlt : p.1 < c.goal_tps
      · rw [if_pos (Or.inl hlt)] at h
        injection h with h1 h2
        subst h1
        exact hlt.le
      · rw [if_neg (by simpa using hlt)] at h
        injection h with h1 h2
        subst h1
        exact le_refl _
  · intro ng ns stable hc hlt
    rw [ErrorRateController.limit, hc]
    simp only [Option.map_some', Option.some_inj]
    rw [if_pos (Or.inl hlt)]
  · unfold LatencyController.limit
    rcases hc : lc_compute lc measured with _ | ng
    · exact le_refl _
    · dsimp only
      by_cases hlt : ng < lc.goal_tps
      · rw [if_pos (Or.inl hlt)]
        exact hlt.le
      · rw [if_neg (by simpa using hlt)]
  · intro ng stable hc hlt
    unfold LatencyController.limit
    rw [hc]
    dsimp only
    rw [if_pos (Or.inl hlt)]

/-- Witness for `c2_asymmetric_apply`: with `stable = false` an over-band
sample leaves a `Stable`-state error-rate controller's goal unchanged (the
raise into `SmallStep` is withheld), so the returned goal is at most the
previous one. -/
theorem c2_witness :
    (100 : ℕ) ≤ (ErrorRateController.mk 100 (1 / 20) ERCState.Stable).goal_tps :=
  (c2_asymmetric_apply (ErrorRateController.mk 100 (1 / 20) ERCState.Stable) (1 / 2) 0
      (LatencyController.mk 1 (9 / 10) 256 (9 / 10)) 0).1
    100 (ErrorRateController.mk 100 (1 / 20) ERCState.Stable)
    (by norm_num [ErrorRateController.limit, erc_compute, ErrorRateController.check_bounds])

/-- Claim C5, counterexample: with `goal_tps = 1`, state `BigStep` and an
observed error rate of 0.2 (within `[0, 1]`, over the band for a 0.05
target), the halving branch computes `1 / 2 = 0` and
`NonZeroU32::new(0).unwrap()` panics — the call does not complete, and in
particular halving at `goal_tps = 1` does not produce a goal of at least 1. -/
theorem c5_counterexample :
    ErrorRateController.limit ⟨1, 1 / 20, .BigStep⟩ (1 / 5) 0 false = none ∧
    (0 : ℚ) ≤ 1 / 5 ∧ (1 / 5 : ℚ) ≤ 1 := by
  refine ⟨?_, by norm_num, by norm_num⟩
  norm_num [ErrorRateController.limit, erc_compute, ErrorRateController.check_bounds, nzu32]

/-- Claim C5, amended: a call to `ErrorRateController::limit` completes and
leaves the goal at least 1 provided `2 * goal_tps` does not overflow `u32`,
any `SmallStep` ratio is at most `1/2`, the mean TPS is at least 1 when the
rate is in-band, and `goal_tps ≥ 2` when the rate is over the band; at
`goal_tps = 1` with an over-band rate the `BigStep` and `SmallStep` branches
panic on `NonZeroU32::new(0).unwrap()`. -/
theorem c5_goal_stays_positive (c : ErrorRateController) (rate mtps : ℚ) (stable : Bool)
    (h1 : 1 ≤ c.goal_tps) (h2 : 2 * c.goal_tps < 2 ^ 32)
    (_h3 : 0 ≤ rate) (_h4 : rate ≤ 1)
    (h5 : c.check_bounds rate = Bounds.Over → 2 ≤ c.goal_tps)
    (h6 : c.check_bounds rate = Bounds.At → 1 ≤ mtps)
    (h7 : ∀ sr, c.state = ERCState.SmallStep sr → sr ≤ 1 / 2) :
    (c.limit rate mtps stable).isSome = true ∧
    ∀ g c', c.limit rate mtps stable = some (g, c') → 1 ≤ g ∧ 1 ≤ c'.goal_tps := by
  have hmain : ∃ ng ns, erc_compute c rate mtps = some (ng, ns) ∧ 1 ≤ ng := by
    unfold erc_compute
    rcases hb : c.check_bounds rate with _ | _ | _
    · -- Under
      rcases hs : c.state with _ | sr | _
      · refine ⟨wrap32 (c.goal_tps * 2), ERCState.BigStep, ?_, ?_⟩
        · have : wrap32 (c.goal_tps * 2) ≠ 0 := by
            unfold wrap32
            rw [Nat.mod_eq_of_lt (by omega)]
            omega
          simp [nzu32, this]
        · unfold wrap32
          rw [Nat.mod_eq_of_lt (by omega)]
          omega
      · have hsr : sr ≤ 1 / 2 := h7 sr hs
        set step : ℚ := max ((c.goal_tps : ℚ) * sr) 1 with hstep
        have hstep1 : 1 ≤ step := le_max_right _ _
        have hstepg : step ≤ (c.goal_tps : ℚ) := by
          rw [hstep]
          refine max_le ?_ (by exact_mod_cast h1)
          calc (c.goal_tps : ℚ) * sr ≤ (c.goal_tps : ℚ) * (1 / 2) := by
                refine mul_le_mul_of_nonneg_left hsr (by positivity)
            _ ≤ (c.goal_tps : ℚ) := by
                have : (0 : ℚ) ≤ (c.goal_tps : ℚ) := by positivity
                linarith
        have hu1 : 1 ≤ ratToU32Sat step := ratToU32Sat_ge_one hstep1
        have hu2 : ratToU32Sat step ≤ c.goal_tps := ratToU32Sat_le_of_le hstepg
        refine ⟨wrap32 (c.goal_tps + ratToU32Sat step), ERCState.SmallStep sr, ?_, ?_⟩
        · have : wrap32 (c.goal_tps + ratToU32Sat step) ≠ 0 := by
            unfold wrap32
            rw [Nat.mod_eq_of_lt (by omega)]
            omega
          simp [nzu32, this]
        · unfold wrap32
          rw [Nat.mod_eq_of_lt (by omega)]
          omega
      · exact ⟨c.goal_tps, ERCState.SmallStep 0.5, rfl, h1⟩
    · -- At
      have hm : 1 ≤ mtps := h6 hb
      have hu : 1 ≤ ratToU32Sat mtps := ratToU32Sat_ge_one hm
      have hnz : ¬ ratToU32Sat mtps = 0 := by omega
      rcases hs : c.state with _ | sr | _
      · refine ⟨ratToU32Sat mtps, ERCState.Stable, ?_, hu⟩
        simp [convert_to_nonzerou32, nzu32, hnz]
      · refine ⟨ratToU32Sat mtps, ERCState.Stable, ?_, hu⟩
        simp [convert_to_nonzerou32, nzu32, hnz]
      · exact ⟨c.goal_tps, ERCState.Stable, rfl, h1⟩
    · -- Over
      have hg2 : 2 ≤ c.goal_tps := h5 hb
      rcases hs : c.state with _ | sr | _
      · refine ⟨c.goal_tps / 2, ERCState.SmallStep 0.5, ?_, by omega⟩
        have : c.goal_tps / 2 ≠ 0 := by omega
        simp [nzu32, this]
      · have hsr : sr ≤ 1 / 2 := h7 sr hs
        set step : ℚ := max ((c.goal_tps : ℚ) * sr) 1 with hstep
        have hstep1 : 1 ≤ step := le_max_right _ _
        have hstepg : step ≤ ((c.goal_tps - 1 : ℕ) : ℚ) := by
          rw [hstep]
          have hcast : ((c.goal_tps - 1 : ℕ) : ℚ) = (c.goal_tps : ℚ) - 1 := by
            push_cast [h1]
            ring
          rw [hcast]
          refine max_le ?_ (by
            have : (2 : ℚ) ≤ (c.goal_tps : ℚ) := by exact_mod_cast hg2
            linarith)
          calc (c.goal_tps : ℚ) * sr ≤ (c.goal_tps : ℚ) * (1 / 2) := by
                refine mul_le_mul_of_nonneg_left hsr (by positivity)
            _ ≤ (c.goal_tps : ℚ) - 1 := by
                have : (2 : ℚ) ≤ (c.goal_tps : ℚ) := by exact_mod_cast hg2
                linarith
        have hu1 : 1 ≤ ratToU32Sat step := ratToU32Sat_ge_one hstep1
        have hu2 : ratToU32Sat step ≤ c.goal_tps - 1 := ratToU32Sat_le_of_le hstepg
        refine ⟨sub32 c.goal_tps (ratToU32Sat step), ERCState.SmallStep (sr / 2), ?_, ?_⟩
        · have hv : sub32 c.goal_tps (ratToU32Sat step) = c.goal_tps - ratToU32Sat step := by
            unfold sub32
            omega
          have : sub32 c.goal_tps (ratToU32Sat step) ≠ 0 := by omega
          simp [nzu32, this]
        · have hv : sub32 c.goal_tps (ratToU32Sat step) = c.goal_tps - ratToU32Sat step := by
            unfold sub32
            omega
          omega
      · exact ⟨c.goal_tps, ERCState.SmallStep 0.5, rfl, h1⟩
  obtain ⟨ng, ns, hc, hng⟩ := hmain
  constructor
  · rw [ErrorRateController.limit, hc]
    rfl
  · intro g c' h
    rw [ErrorRateController.limit, hc] at h
    simp only [Option.map_some', Option.some_inj] at h
    by_cases hlt : ng < c.goal_tps
    · rw [if_pos (Or.inl hlt)] at h
      injection h with ha hb
      subst ha hb
      exact ⟨hng, hng⟩
    · by_cases hst : stable = true
      · rw [if_pos (Or.inr hst)] at h
        injection h with ha hb
        subst ha hb
        exact ⟨hng, hng⟩
      · rw [if_neg (by simp [hlt, hst])] at h
        injection h with ha hb
        subst ha hb
        exact ⟨h1, h1⟩

/-- Witness for `c5_goal_stays_positive`: goal 100, under-band rate 0.01,
`BigStep`, not stable — the call completes. -/
theorem c5_witness :
    ((⟨100, 1 / 20, ERCState.BigStep⟩ : ErrorRateController).limit (1 / 100) 0 false).isSome
      = true :=
  (c5_goal_stays_positive ⟨100, 1 / 20, .BigStep⟩ (1 / 100) 0 false
    (by norm_num) (by norm_num) (by norm_num) (by norm_num)
    (by
      intro hb
      rw [show (⟨100, 1 / 20, .BigStep⟩ : ErrorRateController).check_bounds (1 / 100)
          = Bounds.Under by norm_num [ErrorRateController.check_bounds]] at hb
      exact absurd hb (by decide))
    (by
      intro hb
      rw [show (⟨100, 1 / 20, .BigStep⟩ : ErrorRateController).check_bounds (1 / 100)
          = Bounds.Under by norm_num [ErrorRateController.check_bounds]] at hb
      exact absurd hb (by decide))
    (by intro sr hsr; exact absurd hsr (by simp))).1

/-- Claim C6, counterexample: with exactly three recorded points —
`[(1,10),(2,10),(3,10)]` after the push — both (i.e. the last two) adjacent
slopes are 0, below 1, yet `adjust_concurrency` does *not* declare the run
TPS-limited: `detect_underpowered` additionally requires more than two
slopes (at least four points), which the claim omits. -/
theorem c6_counterexample :
    ((slopes [(1, 10), (2, 10), (3, 10)]).all fun m => m.flt (Fl.val 1)) = true ∧
    (adjust_concurrency ⟨100, false, [(1, 10), (2, 10)], 3, 4⟩ 10).map
      (fun p => p.2.tps_limited) = some false := by
  constructor
  · norm_num [slopes, slope, subUsize, Fl.fdiv, Fl.isNan, Fl.flt, List.all]
  · norm_num [adjust_concurrency, concurrency_candidate, detect_underpowered, slopes, slope,
      subUsize, Fl.fdiv, Fl.fmul, Fl.fceil, Fl.toUsizeSat, ratToUsizeSat, ratToU32Sat, nzu32,
      Fl.isNan, Fl.flt, MAX_CHANGE, CONCURRENCY_SET_ADJUSTMENT]

/-- Claim C6, amended: whenever *more than two* slopes are recorded (at least
four points, the pushed one included) and the last two are below 1,
`adjust_concurrency` declares the run TPS-limited, lowers the base sampler's
TPS limit to the (u32-cast) observed TPS of the last-but-two recorded point,
and resets the concurrency to 0.75 times that point's concurrency, truncated
— provided the cast ceiling is nonzero (otherwise the `unwrap` panics) and
the clamped concurrency candidate is nonzero (otherwise the starting
concurrency is restored without detection). -/
theorem c6_underpowered_detection (s : CAS) (m t : ℚ) (cc : ℕ)
    (h1 : 2 < (slopes (s.measurements ++ [(s.concurrency, m)])).length)
    (h2 : (((slopes (s.measurements ++ [(s.concurrency, m)])).reverse.take 2).all
      fun x => x.flt (Fl.val 1)) = true)
    (h3 : (s.measurements ++ [(s.concurrency, m)]).getD
      ((s.measurements ++ [(s.concurrency, m)]).length - 3) (0, 0) = (cc, t))
    (h4 : ratToU32Sat t ≠ 0)
    (h5 : concurrency_candidate s m ≠ 0) :
    adjust_concurrency s m
      = some (ratToUsizeSat ((cc : ℚ) * CONCURRENCY_SET_ADJUSTMENT),
          { s with measurements := s.measurements ++ [(s.concurrency, m)],
                   tps_limited := true, tps_limit := ratToU32Sat t }) := by
  have hdet : detect_underpowered (s.measurements ++ [(s.concurrency, m)])
      = some (some (ratToU32Sat t, cc)) := by
    unfold detect_underpowered
    rw [if_pos ⟨h1, h2⟩, h3]
    simp [nzu32, h4]
  unfold adjust_concurrency
  rw [if_neg h5, hdet]

/-- Witness for `c6_underpowered_detection`: four flat points — the ceiling
comes from the second point `(2, 10)` and the concurrency drops to
`⌊2 * 0.75⌋ = 1`. -/
theorem c6_witness :
    adjust_concurrency ⟨100, false, [(1, 10), (2, 10), (3, 10)], 4, 4⟩ 10
      = some (ratToUsizeSat ((2 : ℚ) * CONCURRENCY_SET_ADJUSTMENT),
          { tps_limit := ratToU32Sat 10, tps_limited := true,
            measurements := [(1, 10), (2, 10), (3, 10), (4, 10)],
            concurrency := 4, starting_concurrency := 4 }) :=
  c6_underpowered_detection ⟨100, false, [(1, 10), (2, 10), (3, 10)], 4, 4⟩ 10 10 2
    (by norm_num [slopes, slope, subUsize, Fl.fdiv, Fl.isNan])
    (by norm_num [slopes, slope, subUsize, Fl.fdiv, Fl.isNan, Fl.flt])
    (by norm_num)
    (by norm_num [ratToU32Sat])
    (by norm_num [concurrency_candidate, Fl.fdiv, Fl.fmul, Fl.fceil, Fl.toUsizeSat,
      ratToUsizeSat, subUsize, MAX_CHANGE])

/-- Claim C7, counterexample: goal 100, concurrency 4, measured mean TPS 10
(relative error 0.9 ≥ 0.05), with three flat points already recorded.  The
claim predicts the new concurrency `ceil(4 * 100 / 10) = 40` (step 36 ≤ 100);
instead under-power detection fires on the pushed point and the call sets the
concurrency to 1. -/
theorem c7_counterexample :
    (CAS.sample ⟨100, false, [(1, 10), (2, 10), (3, 10)], 4, 4⟩
        [⟨10, 0, 1000000000⟩]).map (fun p => (p.1, p.2.concurrency))
      = some (false, 1) ∧ (1 : ℕ) ≠ 40 := by
  constructor
  · norm_num [CAS.sample, mean_tps, SampleData.tps, SampleData.total, adjust_concurrency,
      concurrency_candidate, detect_underpowered, slopes, slope, subUsize, Fl.fdiv, Fl.fmul,
      Fl.fceil, Fl.toUsizeSat, ratToUsizeSat, ratToU32Sat, nzu32, Fl.isNan, Fl.flt,
      MAX_CHANGE, CONCURRENCY_SET_ADJUSTMENT]
  · norm_num

/-- Claim C7, amended: on a call to `sample` with goal `G` and measured mean
TPS `m`: if `(G - m)/G < 0.05` the call returns `(stable = true, m)` and
changes nothing; otherwise it records `(concurrency, m)` and — provided
under-power detection does not fire on the extended point list and the
clamped candidate `ceil(concurrency * G / m)` (step capped at 100) is
nonzero — sets the concurrency to that candidate and returns
`(stable = false, m)`. -/
theorem c7_sample_contract (s : CAS) (samples : List SampleData) :
    (((s.tps_limit : ℚ) - mean_tps samples) / (s.tps_limit : ℚ) < 0.05 →
      CAS.sample s samples = some (true, s)) ∧
    (¬ (((s.tps_limit : ℚ) - mean_tps samples) / (s.tps_limit : ℚ) < 0.05) →
      detect_underpowered (s.measurements ++ [(s.concurrency, mean_tps samples)])
        = some none →
      concurrency_candidate s (mean_tps samples) ≠ 0 →
      CAS.sample s samples
        = some (false,
            { s with measurements := s.measurements ++ [(s.concurrency, mean_tps samples)],
                     concurrency := concurrency_candidate s (mean_tps samples) })) := by
  constructor
  · intro h
    unfold CAS.sample
    rw [if_pos h]
  · intro h hdet hnz
    unfold CAS.sample
    rw [if_neg h]
    unfold adjust_concurrency
    rw [if_neg hnz, hdet]

/-- Witness for `c7_sample_contract`: goal 100, one recorded sample of mean
TPS 50 — too few points for detection, so the concurrency becomes
`ceil(4 * 100 / 50) = 8`. -/
theorem c7_witness :
    CAS.sample ⟨100, false, [], 4, 4⟩ [⟨50, 0, 1000000000⟩]
      = some (false,
          { tps_limit := 100, tps_limited := false,
            measurements := [(4, mean_tps [⟨50, 0, 1000000000⟩])],
            concurrency := concurrency_candidate ⟨100, false, [], 4, 4⟩
              (mean_tps [⟨50, 0, 1000000000⟩]),
            starting_concurrency := 4 }) :=
  (c7_sample_contract ⟨100, false, [], 4, 4⟩ [⟨50, 0, 1000000000⟩]).2
    (by norm_num [mean_tps, SampleData.tps, SampleData.total])
    (by norm_num [mean_tps, SampleData.tps, SampleData.total, detect_underpowered, slopes])
    (by norm_num [mean_tps, SampleData.tps, SampleData.total, concurrency_candidate, Fl.fdiv,
      Fl.fmul, Fl.fceil, Fl.toUsizeSat, ratToUsizeSat, subUsize, MAX_CHANGE])

theorem sampleStep_inv (st : BSState) (t : Tick)
    (hinv : ∀ d ∈ st.samples, MIN_SAMPLE_COUNT ≤ d.success + d.error) :
    (∀ d ∈ (sampleStep st t).1.samples, MIN_SAMPLE_COUNT ≤ d.success + d.error) ∧
    (∀ out, (sampleStep st t).2 = some out →
      10 < out.length ∧ ∀ d ∈ out, MIN_SAMPLE_COUNT ≤ d.success + d.error) := by
  by_cases hcnt : t.success + t.error < MIN_SAMPLE_COUNT
  · by_cases hconc : st.concurrency < 50
    · simp only [sampleStep, if_pos hcnt, if_pos hconc]
      exact ⟨hinv, by intro out hout; cases hout⟩
    · simp only [sampleStep, if_pos hcnt, if_neg hconc]
      exact ⟨hinv, by intro out hout; cases hout⟩
  · by_cases hskip : 0 < st.skip_window
    · simp only [sampleStep, if_neg hcnt, if_pos hskip]
      exact ⟨hinv, by intro out hout; cases hout⟩
    · have hmem : ∀ d ∈ st.samples ++ [(⟨t.success, t.error, t.elapsed_ns⟩ : SampleData)],
          MIN_SAMPLE_COUNT ≤ d.success + d.error := by
        intro d hd
        rcases List.mem_append.mp hd with h | h
        · exact hinv d h
        · rcases List.mem_singleton.mp h with rfl
          exact Nat.le_of_not_lt hcnt
      simp only [sampleStep, if_neg hcnt, if_neg hskip]
      by_cases h10 :
          10 < (st.samples ++ [(⟨t.success, t.error, t.elapsed_ns⟩ : SampleData)]).length
      · rw [if_pos h10]
        by_cases hstab : is_stable
            (st.means ++
              [mean_tps (st.samples ++ [(⟨t.success, t.error, t.elapsed_ns⟩ : SampleData)])])
            5 = true
        · rw [if_pos hstab]
          refine ⟨hmem, ?_⟩
          intro out hout
          dsimp only at hout
          injection hout with hout
          subst hout
          exact ⟨h10, hmem⟩
        · rw [if_neg hstab]
          by_cases h100 :
              100 < (st.samples ++ [(⟨t.success, t.error, t.elapsed_ns⟩ : SampleData)]).length
          · rw [if_pos h100]
            exact ⟨(by intro d hd; cases hd), (by intro out hout; cases hout)⟩
          · rw [if_neg h100]
            exact ⟨hmem, by intro out hout; cases hout⟩
      · rw [if_neg h10]
        exact ⟨hmem, by intro out hout; cases hout⟩

/-- Claim C10, counterexample: at 50 workers with a 10 s sampling interval, a
tick with zero transactions (count 0 < 256) leaves the loop state completely
unchanged — the concurrency is not below 50 so it is not doubled, and
`Timer::double` refuses to double an interval of 10 s or more, so neither
actuator doubles, contrary to the claim. -/
theorem c10_counterexample :
    sampleStep ⟨[], 0, [], 50, 10000⟩ ⟨0, 0, 200⟩ = (⟨[], 0, [], 50, 10000⟩, none) := by
  norm_num [sampleStep, MIN_SAMPLE_COUNT]

/-- Claim C10, amended: every `SampleSet` the `BaseSampler::sample` loop
returns has more than 10 interval samples, each with a combined
success-plus-error count of at least `MIN_SAMPLE_COUNT` (256); a tick whose
count falls below 256 is never recorded and instead doubles the worker count
(while it is below 50) or, only while the sampling interval is below 10 s,
doubles the interval — at 50 or more workers with an interval of 10 s or
more the tick is merely dropped. -/
theorem c10_sample_set_invariants :
    (∀ (ticks : List Tick) (st : BSState) (out : List SampleData),
      (∀ d ∈ st.samples, MIN_SAMPLE_COUNT ≤ d.success + d.error) →
      sampleLoop ticks st = some out →
      10 < out.length ∧ ∀ d ∈ out, MIN_SAMPLE_COUNT ≤ d.success + d.error) ∧
    (∀ (st : BSState) (t : Tick), t.success + t.error < MIN_SAMPLE_COUNT →
      (sampleStep st t).2 = none ∧
      (sampleStep st t).1.samples = st.samples ∧
      (st.concurrency < 50 →
        (sampleStep st t).1.concurrency = st.concurrency * 2 ∧
        (sampleStep st t).1.interval_ms = st.interval_ms) ∧
      (¬ st.concurrency < 50 → st.interval_ms < 10000 →
        (sampleStep st t).1.interval_ms = st.interval_ms * 2) ∧
      (¬ st.concurrency < 50 → ¬ st.interval_ms < 10000 →
        sampleStep st t = (st, none))) := by
  constructor
  · intro ticks
    induction ticks with
    | nil => intro st out _ h; cases h
    | cons t ts ih =>
      intro st out hinv h
      obtain ⟨hstep1, hstep2⟩ := sampleStep_inv st t hinv
      rcases hs : sampleStep st t with ⟨st', o⟩
      rw [hs] at hstep1 hstep2
      rw [sampleLoop, hs] at h
      rcases o with _ | res
      · dsimp only at h hstep1
        exact ih st' out hstep1 h
      · dsimp only at h hstep1 hstep2
        injection h with h
        subst h
        exact hstep2 res rfl
  · intro st t hcnt
    by_cases hconc : st.concurrency < 50
    · have hs : sampleStep st t = ({ st with concurrency := st.concurrency * 2 }, none) := by
        simp only [sampleStep, if_pos hcnt, if_pos hconc]
      rw [hs]
      exact ⟨rfl, rfl, fun _ => ⟨rfl, rfl⟩, fun h _ => absurd hconc h,
        fun h _ => absurd hconc h⟩
    · by_cases hiv : st.interval_ms < 10000
      · have hs : sampleStep st t
            = ({ st with interval_ms := st.interval_ms * 2 }, none) := by
          simp only [sampleStep, if_pos hcnt, if_neg hconc, if_pos hiv]
        rw [hs]
        exact ⟨rfl, rfl, fun h => absurd h hconc, fun _ _ => rfl,
          fun _ h => absurd hiv h⟩
      · have hs : sampleStep st t = (st, none) := by
          simp only [sampleStep, if_pos hcnt, if_neg hconc, if_neg hiv]
        rw [hs]
        exact ⟨rfl, rfl, fun h => absurd h hconc, fun _ h => absurd h hiv,
          fun _ _ => rfl⟩

/-- Witness for `c10_sample_set_invariants`: a tick with 3 transactions at
4 workers doubles the concurrency and drops the tick. -/
theorem c10_witness :
    (sampleStep ⟨[], 2, [], 4, 200⟩ ⟨1, 2, 100⟩).1.concurrency = 4 * 2 ∧
    (sampleStep ⟨[], 2, [], 4, 200⟩ ⟨1, 2, 100⟩).2 = none :=
  ⟨((c10_sample_set_invariants.2 ⟨[], 2, [], 4, 200⟩ ⟨1, 2, 100⟩
      (by norm_num [MIN_SAMPLE_COUNT])).2.2.1 (by norm_num)).1,
    (c10_sample_set_invariants.2 ⟨[], 2, [], 4, 200⟩ ⟨1, 2, 100⟩
      (by norm_num [MIN_SAMPLE_COUNT])).1⟩
